import Mathlib

/-!
A verification development for the core of the `pi_db` log-file database
(`src/log_file_db.rs`): a shallow embedding of the per-table persistent map and
the transaction engine (`FileMemTxn` / `RefLogFileTxn`), the replay visitor
(the `PairLoader` impl of `AsyncLogFileStore`), the compaction selection of
`LogFileDB::collect`, the meta-table transaction (`LogFileMetaTxn::commit`) and
table forking (`FileMemTxn::fork_commit_inner`), together with theorems about
these operations.

Conventions of the embedding:
* `Bin` (`Arc<[u8]>`) keys and values are opaque shared byte blobs.  A committed
  value is never rewritten in place, so a value is identified by the address of
  its shared allocation: equality on `Value` models `ptr_eq` (`as_ptr`
  comparison) of the source.  Keys are compared by content in the source maps;
  a `Key` here is the (injective) image of the key bytes.
* The persistent ordered map `OrdMap<Tree<Bon, Bin>>` and the loader's
  `BTreeMap` are observed through `get`; both are embedded as association
  lists where the most recent binding of a key shadows older ones, which is
  observationally the overwrite-on-insert behaviour of the source maps.
* Whether two map roots are the same allocation (`OrdMap::ptr_eq`) is not a
  function of their contents; it enters the embedding as the boolean the
  source branches on.
* Asynchronous effects (log appends, `delay_commit`) enter as explicit
  result inputs of the functions that await them.
-/

namespace PiDb

abbrev Key := Nat

abbrev Value := Nat

abbrev Guid := Nat

/-- A log-file path (`PathBuf` of one segment); segment files are named by a
monotonically increasing zero-padded index, embedded as that index. -/
abbrev PathT := Nat

/-- Lookup in an association list whose most recent binding shadows older
ones; the common view of the source's maps (`OrdMap`, `BTreeMap`,
`XHashMap`). -/
def lookupAssoc {α : Type} : List (Nat × α) → Nat → Option α
  | [], _ => none
  | p :: rest, k => if p.1 = k then some p.2 else lookupAssoc rest k

/-- Removal of every binding of a key from an association list: the view of
the source maps' `remove`/`delete`. -/
def eraseAssoc {α : Type} : List (Nat × α) → Nat → List (Nat × α)
  | [], _ => []
  | p :: rest, k => if p.1 = k then eraseAssoc rest k else p :: eraseAssoc rest k

/-- The view of `OrdMap<Tree<Bon, Bin>>` (and of the loader's
`BTreeMap<Vec<u8>, Arc<[u8]>>`): an association list, most recent binding
first. -/
abbrev BinMap := List (Key × Value)

/-- `OrdMap::get` / `BTreeMap::get`. -/
def mapGet (m : BinMap) (k : Key) : Option Value :=
  lookupAssoc m k

/-- `OrdMap::upsert k v` / `BTreeMap::insert`: the new map binds `k` to `v`
and otherwise agrees with the old one. -/
def mapUpsert (m : BinMap) (k : Key) (v : Value) : BinMap :=
  (k, v) :: m

/-- `OrdMap::delete k` / `BTreeMap::remove`. -/
def mapDelete (m : BinMap) (k : Key) : BinMap :=
  eraseAssoc m k

/-- `HashSet`-like membership (`XHashMap<Vec<u8>, ()>::contains_key`,
`XHashMap<Bin, RwLog>::get(..).is_some()`). -/
def memKey (k : Key) : List Key → Bool
  | [] => false
  | x :: xs => if k = x then true else memKey k xs

/-- `crate::db::RwLog`: a transaction journal entry.  `Write none` is a
tombstone (`delete`), `Write (some v)` an upsert. -/
inductive RwLog
  | Read
  | Write (v : Option Value)
  deriving DecidableEq

/-- A transaction's read/write journal (`rwlog: XHashMap<Bin, RwLog>`):
association list with unique keys, first binding wins. -/
abbrev Journal := List (Key × RwLog)

/-- `rwlog.get(key)`. -/
def lookupRw (j : Journal) (k : Key) : Option RwLog :=
  lookupAssoc j k

/-- The structured error kinds produced by the embedded operations, replacing
the source's error strings. -/
inductive DbErr
  | IoErr
  | TryPrepareConflict
  | PrepareConflictValueDiff
  | PrepareConflictOldNotNone
  | PrepareNull
  | DuplicateTab
  | TableInUse
  | TableNotFound
  deriving DecidableEq

/-- `crate::db::TxState`, with the source's constructor spellings. -/
inductive TxState
  | Ok
  | Preparing
  | PreparOk
  | PreparFail
  | Committing
  | Commited
  | CommitFail
  | Rollbacking
  | Rollbacked
  | RollbackFail
  deriving DecidableEq

/-- The state of one table protected by the `MemeryTab` lock: the live root
map and the prepare set (`prepare: Prepare`, transaction id to journal). -/
structure TabState where
  root : BinMap
  prepare : List (Guid × Journal)
  deriving DecidableEq

/-- `prepare.remove(&id)` would look this entry up first: `prepare.get(id)`. -/
def lookupPrep (l : List (Guid × Journal)) (id : Guid) : Option Journal :=
  lookupAssoc l id

/-- Removal of a transaction's entry from the prepare set
(`prepare.remove(&id)`). -/
def erasePrep (l : List (Guid × Journal)) (id : Guid) : List (Guid × Journal) :=
  eraseAssoc l id

/-- Modelled from the spec: `crate::tabs::Prepare::try_prepare` (the `tabs`
module is not under `src/`).  Spec 4.4 step 1: a conflict exists iff another
prepared transaction's journal holds a `Write(_)` for the key (that side is
then a writer). -/
def tryPrepare (prepare : List (Guid × Journal)) (k : Key) (_rw : RwLog) : Bool :=
  prepare.any (fun gj =>
    gj.2.any (fun e =>
      e.1 == k && match e.2 with
        | RwLog.Write _ => true
        | RwLog.Read => false))

/-- The per-key loop of `FileMemTxn::prepare_inner` (src/log_file_db.rs
629-658): for each journal entry, first the prepare-set conflict check, then,
when the table root moved (`rootPtrEq = false`), the pointer-identity
comparison of the value under the current root against the snapshot root. -/
def prepareLoop (prepare : List (Guid × Journal)) (rootPtrEq : Bool)
    (curRoot oldRoot : BinMap) : Journal → Except DbErr Unit
  | [] => Except.ok ()
  | e :: rest =>
    if tryPrepare prepare e.1 e.2 then Except.error DbErr.TryPrepareConflict
    else if rootPtrEq = false then
      match mapGet curRoot e.1, mapGet oldRoot e.1 with
      | some r1, some r2 =>
          if r1 = r2 then prepareLoop prepare rootPtrEq curRoot oldRoot rest
          else Except.error DbErr.PrepareConflictValueDiff
      | some _, none => Except.error DbErr.PrepareConflictValueDiff
      | none, some _ => Except.error DbErr.PrepareConflictOldNotNone
      | none, none => prepareLoop prepare rootPtrEq curRoot oldRoot rest
    else prepareLoop prepare rootPtrEq curRoot oldRoot rest

/-- `FileMemTxn::prepare_inner` (src/log_file_db.rs 629-664): run the per-key
checks, then move the journal into the table's prepare set under the
transaction's id. -/
def prepare_inner (tab : TabState) (txnId : Guid) (rootPtrEq : Bool)
    (oldRoot : BinMap) (rwlog : Journal) : Except DbErr TabState :=
  match prepareLoop tab.prepare rootPtrEq tab.root oldRoot rwlog with
  | Except.error e => Except.error e
  | Except.ok _ => Except.ok { tab with prepare := (txnId, rwlog) :: tab.prepare }

/-- One step of the journal fold of `FileMemTxn::commit_inner` (src/log_file_db.rs
675-691): `Write(None)` deletes, `Write(Some v)` upserts, `Read` does nothing. -/
def applyRw (r : BinMap) (e : Key × RwLog) : BinMap :=
  match e.2 with
  | RwLog.Read => r
  | RwLog.Write none => mapDelete r e.1
  | RwLog.Write (some v) => mapUpsert r e.1 v

/-- `FileMemTxn::commit_inner` (src/log_file_db.rs 667-731).  Takes the
prepared journal out of the prepare set (absence is the `error prepare null`
case); if the table root is still the transaction's snapshot allocation the
working root is installed wholesale, otherwise the journal's writes are folded
into the current root.  The batched log appends are then awaited: the source
DISCARDS the results of `write_batch` and `remove_batch` (the two `.await;`
statements drop the `Result`), which is why the two result inputs do not
appear in the output. -/
def commit_inner (tab : TabState) (txnId : Guid) (workingRoot : BinMap)
    (rootPtrEq : Bool) (_writeBatchRes _removeBatchRes : Except DbErr Unit) :
    Except DbErr Journal × TabState :=
  match lookupPrep tab.prepare txnId with
  | none => (Except.error DbErr.PrepareNull, { tab with prepare := erasePrep tab.prepare txnId })
  | some rwlog =>
      let newRoot := if rootPtrEq then workingRoot else rwlog.foldl applyRw tab.root
      (Except.ok rwlog, { tab with root := newRoot, prepare := erasePrep tab.prepare txnId })

/-- `RefLogFileTxn::commit` (src/log_file_db.rs 503-516): the terminal state is
`Commited` exactly when `commit_inner` returned `Ok`. -/
def commitTxn (tab : TabState) (txnId : Guid) (workingRoot : BinMap)
    (rootPtrEq : Bool) (writeBatchRes removeBatchRes : Except DbErr Unit) :
    TxState × Except DbErr Journal × TabState :=
  match commit_inner tab txnId workingRoot rootPtrEq writeBatchRes removeBatchRes with
  | (Except.ok l, tab') => (TxState.Commited, Except.ok l, tab')
  | (Except.error e, tab') => (TxState.CommitFail, Except.error e, tab')

/-- `FileMemTxn::rollback_inner` (src/log_file_db.rs 734-739): remove the
transaction's prepare-set entry and return `Ok(())`. -/
def rollback_inner (tab : TabState) (txnId : Guid) : Except DbErr Unit × TabState :=
  (Except.ok (), { tab with prepare := erasePrep tab.prepare txnId })

/-- `RefLogFileTxn::rollback` (src/log_file_db.rs 519-532): `Rollbacking`, then
`Rollbacked` on `Ok` and `RollbackFail` on `Err`. -/
def rollbackTxn (tab : TabState) (txnId : Guid) : TxState × TabState :=
  match rollback_inner tab txnId with
  | (Except.ok _, tab') => (TxState.Rollbacked, tab')
  | (Except.error _, tab') => (TxState.RollbackFail, tab')

/-- The per-transaction fields of `FileMemTxn` that `get` uses: the writable
flag, the working root (`root`) and the journal (`rwlog`). -/
structure TxnLocal where
  writable : Bool
  root : BinMap
  rwlog : Journal
  deriving DecidableEq

/-- `FileMemTxn::get` (src/log_file_db.rs 593-610): look the key up in the
working root; on a hit, a writable transaction that has not journaled the key
records `Read`; on a miss, return `None` (nothing is journaled). -/
def txnGet (t : TxnLocal) (k : Key) : Option Value × TxnLocal :=
  match mapGet t.root k with
  | some v =>
      if t.writable then
        match lookupRw t.rwlog k with
        | some _ => (some v, t)
        | none => (some v, { t with rwlog := (k, RwLog.Read) :: t.rwlog })
      else (some v, t)
  | none => (none, t)

/-! The replay visitor: the `PairLoader` impl of `AsyncLogFileStore`
(src/log_file_db.rs 1051-1158). -/

/-- The mutable fields of `AsyncLogFileStore` touched by `is_require`/`load`.
`removed` are the tombstoned keys, `tmpMap` the already-seen keys, `map` the
materialized key-value buffer, `statistics` the per-segment
`(path, entries, live_keys)` deque with its most recently pushed entry first. -/
structure LoaderState where
  removed : List Key
  map : BinMap
  tmpMap : List Key
  writablePath : Option PathT
  isStatistics : Bool
  isInit : Bool
  statistics : List (PathT × Nat × Nat)

/-- The statistics accumulation shared by `is_require` (1060-1092) and `load`
(1120-1146): bump the head entry when it is the same segment, otherwise push a
fresh `(segment, 1, 0 or 1)` head, counting the key only when it was not
already seen (`tmp_map`). -/
def statUpdate (stats : List (PathT × Nat × Nat)) (seg : PathT) (tmpHas : Bool) :
    List (PathT × Nat × Nat) :=
  match stats with
  | [] => (if tmpHas then (seg, 1, 0) else (seg, 1, 1)) :: stats
  | (path, logLen, keyLen) :: rest =>
      if path = seg then
        (path, logLen + 1, if tmpHas then keyLen else keyLen + 1) :: rest
      else
        (if tmpHas then (seg, 1, 0) else (seg, 1, 1)) :: stats

/-- The statistics / writable-path bookkeeping of `is_require`
(src/log_file_db.rs 1055-1112), producing the new
`(statistics, writable_path, is_statistics)` triple.  In statistics mode only
filtered-out records (`b = false`) are counted; before statistics mode the
first segment becomes the writable head, and the first different segment
switches statistics mode on with an initial entry. -/
def isRequireStats (s : LoaderState) (seg : PathT) (b tmpHas : Bool) :
    List (PathT × Nat × Nat) × Option PathT × Bool :=
  if s.isStatistics then
    ((if !b then statUpdate s.statistics seg tmpHas else s.statistics),
      s.writablePath, s.isStatistics)
  else if s.writablePath.isNone then
    (s.statistics, some seg, s.isStatistics)
  else if s.writablePath ≠ some seg then
    (((if !b then (seg, 1, 1) else (seg, 0, 0)) :: s.statistics), s.writablePath, true)
  else
    (s.statistics, s.writablePath, s.isStatistics)

/-- `AsyncLogFileStore::is_require` (src/log_file_db.rs 1052-1115): the result
is `!removed.contains(key) && !tmp_map.contains(key)`; only the statistics
fields are mutated. -/
def isRequire (s : LoaderState) (seg : PathT) (k : Key) : Bool × LoaderState :=
  let b := !(memKey k s.removed) && !(memKey k s.tmpMap)
  let t := isRequireStats s seg b (memKey k s.tmpMap)
  (b, { s with statistics := t.1, writablePath := t.2.1, isStatistics := t.2.2 })

/-- `AsyncLogFileStore::load` (src/log_file_db.rs 1117-1158): update the
statistics, then either materialize an append (into `map` while initializing,
and into `tmp_map`) or record a tombstone (`removed`).  `value = none` is the
`Remove` method. -/
def loadRec (s : LoaderState) (seg : PathT) (k : Key) (v : Option Value) : LoaderState :=
  let ns := if s.isStatistics then statUpdate s.statistics seg (memKey k s.tmpMap)
            else s.statistics
  match v with
  | some v =>
      { s with statistics := ns,
               map := if s.isInit then mapUpsert s.map k v else s.map,
               tmpMap := k :: s.tmpMap }
  | none => { s with statistics := ns, removed := k :: s.removed }

/-- One replayed log record: its segment (file index) and the key, with
`value = none` for a `Remove` record and `value = some v` for an append. -/
structure Rec where
  seg : PathT
  key : Key
  value : Option Value
  deriving DecidableEq

/-- One record visit of the replay driver, as in the statistics rescan loop of
`LogFileDB::collect` (src/log_file_db.rs 273-277): `load` runs only when
`is_require` returned true. -/
def replayStep (s : LoaderState) (r : Rec) : LoaderState :=
  let p := isRequire s r.seg r.key
  if p.1 then loadRec p.2 r.seg r.key r.value else p.2

/-- A full replay over a record list given NEWEST FIRST (newest segment to
oldest, newest block first within a segment), which is the visit order of the
log driver. -/
def replay (recs : List Rec) (s : LoaderState) : LoaderState :=
  recs.foldl replayStep s

/-- The freshly constructed `AsyncLogFileStore` (e.g. src/log_file_db.rs
1292-1301): everything empty, not in statistics mode, initializing. -/
def initLoader : LoaderState :=
  { removed := [], map := [], tmpMap := [], writablePath := none,
    isStatistics := false, isInit := true, statistics := [] }

/-- The newest record for a key in a newest-first record list: `some (some v)`
when the newest record is an append of `v`, `some none` when it is a remove,
`none` when the key never occurs. -/
def newestFor (k : Key) : List Rec → Option (Option Value)
  | [] => none
  | r :: rest => if r.key = k then some r.value else newestFor k rest

/-! Compaction selection (`LogFileDB::collect`, src/log_file_db.rs 193-224). -/

/-- The two selections of `LogFileDB::collect`: segments to delete
(`remove_logs`) and segments to rewrite (`collect_logs`). -/
structure CollectPlan where
  removeLogs : List PathT
  collectLogs : List PathT
  deriving DecidableEq

/-- The selection loop of `LogFileDB::collect` (src/log_file_db.rs 201-218),
iterating the statistics deque in its own order (front to back): a segment
with no live keys is marked for removal; otherwise when
`entries / unique_live_keys < 1.5` (embedded exactly as `2*entries <
3*live_keys`) the scan stops; otherwise the segment is marked for rewrite. -/
def collectSelect : List (PathT × Nat × Nat) → CollectPlan
  | [] => { removeLogs := [], collectLogs := [] }
  | (path, logLen, keyLen) :: rest =>
      if keyLen = 0 then
        let p := collectSelect rest
        { removeLogs := path :: p.removeLogs, collectLogs := p.collectLogs }
      else if 2 * logLen < 3 * keyLen then
        { removeLogs := [], collectLogs := [] }
      else
        let p := collectSelect rest
        { removeLogs := p.removeLogs, collectLogs := path :: p.collectLogs }

/-- A segment on which the selection scan continues (it does not stop the
scan): either nothing live remains, or its reuse ratio is at least 1.5. -/
def segContinue (t : PathT × Nat × Nat) : Bool :=
  decide (t.2.2 = 0 ∨ 3 * t.2.2 ≤ 2 * t.2.1)

/-- The claim's reading of the scan order: the per-segment statistics visited
newest segment to oldest.  The loader deque holds the OLDEST read-only segment
at the front (entries are pushed to the front while replay walks newest to
oldest), so this order is the reverse of the deque order `collect` iterates. -/
def collectSelectNewestFirst (stats : List (PathT × Nat × Nat)) : CollectPlan :=
  collectSelect stats.reverse

/-- `crate::fork::TableMetaInfo` (fields used by src/log_file_db.rs): parent
table, fork-cutoff segment id, reference count, and the opaque schema meta. -/
structure TableMetaInfo where
  parent : Option Nat
  parent_log_id : Option Nat
  ref_count : Nat
  meta : Nat
  deriving DecidableEq

/-- Modelled from the spec: `crate::fork::TableMetaInfo::new` (the `fork`
module is not under `src/`).  A freshly created table's meta has no parent, no
cutoff segment, and `ref_count` 0 (spec 4.5 and scenario S4: a child is
droppable right after the fork while the parent's count is 1). -/
def TableMetaInfo.new (m : Nat) : TableMetaInfo :=
  { parent := none, parent_log_id := none, ref_count := 0, meta := m }

abbrev TabName := Nat

/-- `ALL_TABLES` / meta-store lookup (`XHashMap::get`, `BTreeMap::get`). -/
def lookupTab (ts : List (TabName × TableMetaInfo)) (n : TabName) : Option TableMetaInfo :=
  lookupAssoc ts n

/-- `XHashMap::remove` / `BTreeMap::remove`. -/
def removeTab (ts : List (TabName × TableMetaInfo)) (n : TabName) :
    List (TabName × TableMetaInfo) :=
  eraseAssoc ts n

/-- `XHashMap::insert` / `BTreeMap::insert` (overwrite; observed through
lookup, the new binding shadows any old one). -/
def insertTab (ts : List (TabName × TableMetaInfo)) (n : TabName) (m : TableMetaInfo) :
    List (TabName × TableMetaInfo) :=
  (n, m) :: ts

/-- The meta state mutated by fork commit and meta-transaction commit: the
in-process registry `ALL_TABLES` and the `tabs_meta` store contents (the
key-value pairs written through `store.write` / removed through
`store.remove`, decoded). -/
structure MetaState where
  allTables : List (TabName × TableMetaInfo)
  metaStore : List (TabName × TableMetaInfo)
  deriving DecidableEq

/-- `FileMemTxn::fork_commit_inner` (src/log_file_db.rs 751-812): split the
parent's log (the split result is an input), build the child meta with
`parent` and `parent_log_id`, insert it into `ALL_TABLES`, then increment the
parent's `ref_count` (when the parent is registered) and rewrite the parent's
meta entry, and finally write the child's meta entry. -/
def forkCommitInner (st : MetaState) (tabName forkTabName : TabName) (meta : Nat)
    (forceForkRes : Except DbErr Nat) : Except DbErr MetaState :=
  match forceForkRes with
  | Except.error e => Except.error e
  | Except.ok index =>
      let tmi0 := TableMetaInfo.new meta
      let tmi := { tmi0 with parent := some tabName, parent_log_id := some index }
      let tables1 := insertTab st.allTables forkTabName tmi
      match lookupTab tables1 tabName with
      | some pm =>
          let pm' := { pm with ref_count := pm.ref_count + 1 }
          Except.ok { allTables := insertTab tables1 tabName pm',
                      metaStore := insertTab (insertTab st.metaStore tabName pm') forkTabName tmi }
      | none =>
          Except.ok { allTables := tables1, metaStore := insertTab st.metaStore forkTabName tmi }

/-- One alteration of `LogFileMetaTxn::commit` (src/log_file_db.rs 946-1027):
`meta = some m` creates/overwrites a table (duplicate creation is rejected),
`meta = none` drops one: a positive `ref_count` fails the drop, otherwise the
meta entry is removed and, when the table has a registered parent, the
parent's `ref_count` is decremented and its meta entry rewritten (a parentless
table gets its store entry removed a second time, a no-op). -/
def alterCommitOne (st : MetaState) (tabName : TabName) (meta : Option Nat) :
    Except DbErr MetaState :=
  if (lookupTab st.allTables tabName).isSome && meta.isSome then
    Except.error DbErr.DuplicateTab
  else
    match meta with
    | some m =>
        let tmi := TableMetaInfo.new m
        Except.ok { allTables := insertTab st.allTables tabName tmi,
                    metaStore := insertTab st.metaStore tabName tmi }
    | none =>
        match lookupTab st.allTables tabName with
        | some tab =>
            if 0 < tab.ref_count then Except.error DbErr.TableInUse
            else
              let store1 := removeTab st.metaStore tabName
              let tables1 := removeTab st.allTables tabName
              match tab.parent with
              | some p =>
                  (match lookupTab tables1 p with
                   | some pm =>
                       let pm' := { pm with ref_count := pm.ref_count - 1 }
                       Except.ok { allTables := insertTab tables1 p pm',
                                   metaStore := insertTab store1 p pm' }
                   | none => Except.ok { allTables := tables1, metaStore := store1 })
              | none =>
                  Except.ok { allTables := tables1, metaStore := removeTab store1 tabName }
        | none => Except.error DbErr.TableNotFound

/-- `LogFileDB::collect` has the fork registry (`ALL_TABLES`, the meta table)
in scope while selecting segments, but the selection never reads it (the
cutoff check is the TODO of src/log_file_db.rs 212). -/
def collectWithTables (_tables : List (TabName × TableMetaInfo))
    (stats : List (PathT × Nat × Nat)) : CollectPlan :=
  collectSelect stats

/-- A segment that is the fork cutoff of some registered table: its
`parent_log_id` names the segment. -/
def isForkCutoff (tables : List (TabName × TableMetaInfo)) (seg : Nat) : Bool :=
  tables.any (fun p => p.2.parent_log_id == some seg)

/-! Iterators (`RefLogFileTxn::iter` / `key_iter`, `MemIter` / `MemKeyIter`,
src/log_file_db.rs 426-465 and 838-911). -/

/-- The opaque `Filter` argument of `iter` / `key_iter` (an optional callback
in the source). -/
abbrev FilterArg := Option (Key × Value → Bool)

/-- `ordmap` ordered-iteration helpers.  Modelled from the spec:
`OrdMap::iter`/`keys` (the `ordmap` crate is an external collaborator):
ordered traversal from the optional start key, ascending, or descending when
the flag is set. -/
def insertKeySorted (k : Key) : List Key → List Key
  | [] => [k]
  | x :: xs => if k ≤ x then k :: x :: xs else x :: insertKeySorted k xs

/-- Insertion sort of a key list (ascending). -/
def sortKeys : List Key → List Key
  | [] => []
  | x :: xs => insertKeySorted x (sortKeys xs)

/-- The distinct keys of a map root in ascending order. -/
def sortedKeysOf (m : BinMap) : List Key :=
  sortKeys ((m.map (fun p => p.1)).dedup)

/-- Modelled from the spec: `OrdMap::iter(key, descending)` — the map's pairs
in ascending key order starting at the key (descending from it when the flag
is set). -/
def ordIter (m : BinMap) (start : Option Key) (descending : Bool) :
    List (Key × Value) :=
  let ks := sortedKeysOf m
  let ks := match start, descending with
    | none, false => ks
    | none, true => ks.reverse
    | some s, false => ks.filter (fun k => decide (s ≤ k))
    | some s, true => (ks.filter (fun k => decide (k ≤ s))).reverse
  ks.filterMap (fun k => (mapGet m k).map (fun v => (k, v)))

/-- `MemIter` (src/log_file_db.rs 838-874): holds the root, the filter, and
the boxed traversal cursor (`point`); `next` yields the cursor's next pair. -/
structure MemIter where
  root : BinMap
  filter : FilterArg
  point : List (Key × Value)

/-- `MemIter::next` (src/log_file_db.rs 862-873). -/
def MemIter.next (m : MemIter) : Option (Key × Value) × MemIter :=
  match m.point with
  | [] => (none, m)
  | kv :: rest => (some kv, { m with point := rest })

/-- All pairs yielded by repeatedly calling `next` until it returns `None`. -/
def drainPairs : List (Key × Value) → List (Key × Value)
  | [] => []
  | kv :: rest => kv :: drainPairs rest

/-- The sequence a `MemIter` yields. -/
def MemIter.drain (m : MemIter) : List (Key × Value) :=
  drainPairs m.point

/-- `MemKeyIter` (src/log_file_db.rs 876-911). -/
structure MemKeyIter where
  root : BinMap
  filter : FilterArg
  point : List Key

/-- The sequence a `MemKeyIter` yields (`MemKeyIter::next` repeatedly). -/
def MemKeyIter.drain (m : MemKeyIter) : List Key :=
  m.point

/-- `RefLogFileTxn::iter` (src/log_file_db.rs 426-444): build a `MemIter` over
the transaction root's ordered traversal; the filter is stored but never
consulted. -/
def iterTxn (txnRoot : BinMap) (key : Option Key) (descending : Bool)
    (filter : FilterArg) : MemIter :=
  { root := txnRoot, filter := filter, point := ordIter txnRoot key descending }

/-- `RefLogFileTxn::key_iter` (src/log_file_db.rs 448-465). -/
def keyIterTxn (txnRoot : BinMap) (key : Option Key) (descending : Bool)
    (filter : FilterArg) : MemKeyIter :=
  { root := txnRoot, filter := filter,
    point := (ordIter txnRoot key descending).map (fun p => p.1) }

/-- The record list of the compaction counterexample, newest first: the
writable head is segment 2; segment 1 (the newer read-only segment) holds one
record of a fresh key; segment 0 (older) holds a superseded record of key 1
and a fresh record of key 2, so its reuse ratio is 2. -/
def c6recs : List Rec :=
  [{ seg := 2, key := 9, value := some 90 },
   { seg := 1, key := 1, value := some 10 },
   { seg := 0, key := 1, value := some 11 },
   { seg := 0, key := 2, value := some 12 }]

/-- A registry for the fork-cutoff counterexample: table 2 was forked from
table 1 at segment 0 (its `parent_log_id`), and still exists. -/
def c7tables : List (TabName × TableMetaInfo) :=
  [(1, { parent := none, parent_log_id := none, ref_count := 1, meta := 0 }),
   (2, { parent := some 1, parent_log_id := some 0, ref_count := 0, meta := 0 })]

/-- Statistics for the fork-cutoff counterexample: segment 0 has two entries
over one live key, so the reuse rule selects it for rewrite. -/
def c7stats : List (PathT × Nat × Nat) :=
  [(0, 2, 1)]

/-- A concrete prepared journal: an upsert of key 1, a delete of key 3 and a
read of key 2. -/
def c3rwlog : Journal :=
  [(1, RwLog.Write (some 99)), (3, RwLog.Write none), (2, RwLog.Read)]

/-- A concrete table state holding `c3rwlog` prepared under transaction 7. -/
def c3tab : TabState :=
  { root := [(1, 10), (2, 20)], prepare := [(7, c3rwlog)] }

/-- A meta entry for a parentless table before any fork. -/
def c5pm0 : TableMetaInfo :=
  { parent := none, parent_log_id := none, ref_count := 0, meta := 5 }

/-- The same table's meta entry while one fork of it exists. -/
def c5pm1 : TableMetaInfo :=
  { parent := none, parent_log_id := none, ref_count := 1, meta := 5 }

/-- The child's meta entry: forked from table 1 at split index 3. -/
def c5cm : TableMetaInfo :=
  { parent := some 1, parent_log_id := some 3, ref_count := 0, meta := 9 }

/-- Registry holding only the unforked parent. -/
def c5st0 : MetaState := ⟨[(1, c5pm0)], []⟩

/-- Registry holding the parent with one live fork. -/
def c5st1 : MetaState := ⟨[(1, c5pm1)], []⟩

/-- Registry holding parent (count 1) and its child. -/
def c5st2 : MetaState := ⟨[(2, c5cm), (1, c5pm1)], []⟩

/-! ### Association-list lemmas -/

theorem lookupAssoc_cons {α : Type} (p : Nat × α) (l : List (Nat × α)) (k : Nat) :
    lookupAssoc (p :: l) k = if p.1 = k then some p.2 else lookupAssoc l k := rfl

theorem lookupRw_cons (e : Key × RwLog) (l : Journal) (k : Key) :
    lookupRw (e :: l) k = if e.1 = k then some e.2 else lookupRw l k := rfl

theorem lookupAssoc_erase {α : Type} (l : List (Nat × α)) (id g : Nat) :
    lookupAssoc (eraseAssoc l id) g = if g = id then none else lookupAssoc l g := by
  induction l with
  | nil => simp [eraseAssoc, lookupAssoc]
  | cons p rest ih =>
    by_cases hpi : p.1 = id
    · rw [eraseAssoc, if_pos hpi, ih]
      by_cases hg : g = id
      · simp [hg]
      · rw [if_neg hg, if_neg hg, lookupAssoc_cons, if_neg (by omega)]
    · rw [eraseAssoc, if_neg hpi, lookupAssoc_cons]
      by_cases hpg : p.1 = g
      · rw [if_pos hpg, if_neg (by omega), lookupAssoc_cons, if_pos hpg]
      · rw [if_neg hpg, ih]
        by_cases hg : g = id
        · simp [hg]
        · rw [if_neg hg, if_neg hg, lookupAssoc_cons, if_neg hpg]

/-! ### Rollback (claim C9) -/

/-- Claim C9: `rollback()` always succeeds — the transaction always reaches
`Rollbacked` (so `RollbackFail` is unreachable) — and its only effect on the
table is removing the transaction's entry from the prepare set; the table's
root map is unchanged. -/
theorem c9_rollback_always_succeeds (tab : TabState) (txnId : Guid) :
    (rollbackTxn tab txnId).1 = TxState.Rollbacked ∧
    (rollbackTxn tab txnId).2.root = tab.root ∧
    ∀ g, lookupPrep (rollbackTxn tab txnId).2.prepare g =
      if g = txnId then none else lookupPrep tab.prepare g :=
  ⟨rfl, rfl, fun g => lookupAssoc_erase tab.prepare txnId g⟩

/-! ### Iterators (claim C10) -/

/-- Claim C10: the sequence yielded by a transaction's `iter` or `key_iter` is
independent of the `filter` argument — `MemIter::next` / `MemKeyIter::next`
never consult the stored filter. -/
theorem c10_iter_independent_of_filter (root : BinMap) (key : Option Key)
    (descending : Bool) (f1 f2 : FilterArg) :
    MemIter.drain (iterTxn root key descending f1) =
      MemIter.drain (iterTxn root key descending f2) ∧
    MemKeyIter.drain (keyIterTxn root key descending f1) =
      MemKeyIter.drain (keyIterTxn root key descending f2) :=
  ⟨rfl, rfl⟩

/-! ### Commit durability boundary (claim C1) -/

/-- Claim C1 (refuted by the code; evaluated at the failing input): a prepared
transaction with one journaled insert whose batched log append/commit fails
with an IO error nevertheless reaches the terminal state `Commited`, because
`FileMemTxn::commit_inner` discards the `Result`s of `write_batch` and
`remove_batch`. -/
theorem c1_commit_reports_commited_despite_log_error :
    (commitTxn { root := [(1, 10)], prepare := [(7, [(2, RwLog.Write (some 22))])] }
      7 [(2, 22), (1, 10)] true (Except.error DbErr.IoErr) (Except.error DbErr.IoErr)).1
      = TxState.Commited := rfl

/-! ### Compaction and the fork registry (claim C7) -/

/-- Claim C7 is false on the code: segment 0 is the fork cutoff of the still
existing child table 2, yet `collect`'s selection puts it into the rewrite
set. -/
theorem c7_counterexample_fork_cutoff_rewritten :
    isForkCutoff c7tables 0 = true ∧
    0 ∈ (collectWithTables c7tables c7stats).collectLogs := by
  decide

/-- Claim C7 (amended): `collect`'s segment selection never consults the fork
registry — the plan is a function of the statistics alone, identical under any
two registry states — so a fork-cutoff segment is rewritten whenever the reuse
rules select it. -/
theorem c7_collect_ignores_fork_registry (t1 t2 : List (TabName × TableMetaInfo))
    (stats : List (PathT × Nat × Nat)) :
    collectWithTables t1 stats = collectWithTables t2 stats := rfl

/-! ### Transaction get (claim C8) -/

/-- Claim C8 is false on the code: a writable transaction reading key 5, which
is absent from the working root and not journaled, gets `None` back and NO
`Read` entry is recorded in the journal (the `None` arm of `FileMemTxn::get`
returns without touching `rwlog`). -/
theorem c8_counterexample_no_read_recorded_on_missing_key :
    ({ writable := true, root := [], rwlog := [] } : TxnLocal).writable = true ∧
    mapGet ({ writable := true, root := [], rwlog := [] } : TxnLocal).root 5 = none ∧
    lookupRw ({ writable := true, root := [], rwlog := [] } : TxnLocal).rwlog 5 = none ∧
    lookupRw (txnGet { writable := true, root := [], rwlog := [] } 5).2.rwlog 5 = none := by
  decide

/-- Claim C8 (amended): `get` consults the working root (which already
reflects every journaled write); a `Read` entry is recorded exactly when the
transaction is writable, the key is present in the working root, and the key
is not already journaled — a get of an absent key records nothing. -/
theorem c8_get_semantics (t : TxnLocal) (k : Key) :
    (txnGet t k).1 = mapGet t.root k ∧
    ∀ j, lookupRw (txnGet t k).2.rwlog j =
      if j = k ∧ t.writable = true ∧ (mapGet t.root k).isSome = true ∧
          lookupRw t.rwlog k = none
      then some RwLog.Read else lookupRw t.rwlog j := by
  constructor
  · rcases hr : mapGet t.root k with _ | v
    · simp [txnGet, hr]
    · cases hw : t.writable
      · simp [txnGet, hr, hw]
      · rcases hl : lookupRw t.rwlog k with _ | e <;> simp [txnGet, hr, hw, hl]
  · intro j
    rcases hr : mapGet t.root k with _ | v
    · simp [txnGet, hr]
    · cases hw : t.writable
      · simp [txnGet, hr, hw]
      · rcases hl : lookupRw t.rwlog k with _ | e
        · by_cases hj : j = k
          · subst hj
            simp [txnGet, hr, hw, hl, lookupRw_cons]
          · simp [txnGet, hr, hw, hl, lookupRw_cons, hj, Ne.symm hj]
        · simp [txnGet, hr, hw, hl]

/-! ### Prepare conflict detection (claim C2) -/

theorem prepareLoop_ok_iff (prepare : List (Guid × Journal)) (curRoot oldRoot : BinMap) :
    ∀ rwlog : Journal, (∀ e ∈ rwlog, tryPrepare prepare e.1 e.2 = false) →
    (prepareLoop prepare false curRoot oldRoot rwlog = Except.ok () ↔
      ∀ e ∈ rwlog, mapGet curRoot e.1 = mapGet oldRoot e.1) := by
  intro rwlog
  induction rwlog with
  | nil => intro _; simp [prepareLoop]
  | cons e rest ih =>
    intro h
    have he : tryPrepare prepare e.1 e.2 = false := h e (List.mem_cons_self e rest)
    have hrest := ih (fun x hx => h x (List.mem_cons_of_mem e hx))
    rcases hc : mapGet curRoot e.1 with _ | r1 <;> rcases ho : mapGet oldRoot e.1 with _ | r2
    · simp [prepareLoop, he, hc, ho, hrest]
    · simp [prepareLoop, he, hc, ho]
    · simp [prepareLoop, he, hc, ho]
    · by_cases hrr : r1 = r2
      · simp [prepareLoop, he, hc, ho, hrr, hrest]
      · simp [prepareLoop, he, hc, ho, hrr]

/-- Claim C2: when the table root at prepare time is not pointer-identical to
the transaction's snapshot root (and no prepare-set conflict interferes),
`prepare_inner` succeeds exactly when, for every journaled key, the value in
the current root (if any) is pointer-identical to the value in the snapshot
root (if any); a key absent from both roots is not a conflict. -/
theorem c2_prepare_root_moved_ok_iff_values_ptr_identical
    (tab : TabState) (txnId : Guid) (oldRoot : BinMap) (rwlog : Journal)
    (hfree : ∀ e ∈ rwlog, tryPrepare tab.prepare e.1 e.2 = false) :
    (∃ tab', prepare_inner tab txnId false oldRoot rwlog = Except.ok tab') ↔
      ∀ e ∈ rwlog, mapGet tab.root e.1 = mapGet oldRoot e.1 := by
  constructor
  · rintro ⟨tab', h'⟩
    unfold prepare_inner at h'
    rcases hp : prepareLoop tab.prepare false tab.root oldRoot rwlog with e | u
    · rw [hp] at h'; cases h'
    · cases u; exact (prepareLoop_ok_iff tab.prepare tab.root oldRoot rwlog hfree).mp hp
  · intro hall
    have hok := (prepareLoop_ok_iff tab.prepare tab.root oldRoot rwlog hfree).mpr hall
    refine ⟨{ tab with prepare := (txnId, rwlog) :: tab.prepare }, ?_⟩
    unfold prepare_inner
    rw [hok]

/-- Witness for C2 at a concrete input: an empty prepare set, a root
identical to the snapshot for the single journaled key. -/
theorem c2_witness :
    (∀ e ∈ ([(1, RwLog.Read)] : Journal),
      tryPrepare ({ root := [(1, 10)], prepare := [] } : TabState).prepare e.1 e.2 = false) ∧
    ((∃ tab', prepare_inner { root := [(1, 10)], prepare := [] } 3 false [(1, 10)]
        [(1, RwLog.Read)] = Except.ok tab') ↔
      ∀ e ∈ ([(1, RwLog.Read)] : Journal),
        mapGet ({ root := [(1, 10)], prepare := [] } : TabState).root e.1 =
          mapGet ([(1, 10)] : BinMap) e.1) :=
  ⟨by decide,
   c2_prepare_root_moved_ok_iff_values_ptr_identical
     { root := [(1, 10)], prepare := [] } 3 [(1, 10)] [(1, RwLog.Read)] (by decide)⟩

/-! ### Commit root installation (claim C3) -/

theorem applyRw_get (r : BinMap) (k0 : Key) (rw : RwLog) (k : Key) :
    mapGet (applyRw r (k0, rw)) k =
      if k0 = k then
        (match rw with
         | RwLog.Read => mapGet r k
         | RwLog.Write none => none
         | RwLog.Write (some v) => some v)
      else mapGet r k := by
  rcases rw with _ | ov
  · simp [applyRw]
  · rcases ov with _ | v
    · rw [applyRw]
      show mapGet (mapDelete r k0) k = _
      rw [mapDelete, mapGet, lookupAssoc_erase]
      by_cases h : k0 = k
      · simp [h, mapGet]
      · rw [if_neg (Ne.symm h), if_neg h, mapGet]
    · rw [applyRw]
      show mapGet (mapUpsert r k0 v) k = _
      rw [mapUpsert, mapGet, lookupAssoc_cons]
      by_cases h : k0 = k <;> simp [h, mapGet]

theorem foldl_applyRw_notmem :
    ∀ (l : Journal) (r : BinMap) (k : Key), (∀ e ∈ l, e.1 ≠ k) →
    mapGet (l.foldl applyRw r) k = mapGet r k := by
  intro l
  induction l with
  | nil => intro r k _; rfl
  | cons e rest ih =>
    intro r k h
    rw [List.foldl_cons, ih _ k (fun x hx => h x (List.mem_cons_of_mem e hx))]
    rcases e with ⟨k0, rw⟩
    rw [applyRw_get, if_neg (h (k0, rw) (List.mem_cons_self _ _))]

theorem foldl_applyRw_get :
    ∀ (l : Journal) (r : BinMap) (k : Key), (l.map (fun e => e.1)).Nodup →
    mapGet (l.foldl applyRw r) k =
      match lookupRw l k with
      | some (RwLog.Write (some v)) => some v
      | some (RwLog.Write none) => none
      | _ => mapGet r k := by
  intro l
  induction l with
  | nil => intro r k _; rfl
  | cons e rest ih =>
    intro r k hnd
    rw [List.foldl_cons]
    simp only [List.map_cons, List.nodup_cons] at hnd
    obtain ⟨hnotin, hnd'⟩ := hnd
    by_cases hk : e.1 = k
    · have hrest : ∀ x ∈ rest, x.1 ≠ k := by
        intro x hx hxk
        exact hnotin (by
          rw [hk, ← hxk]
          exact List.mem_map_of_mem (fun e => e.1) hx)
      rw [foldl_applyRw_notmem rest _ k hrest]
      rcases e with ⟨k0, rw⟩
      rw [applyRw_get, if_pos hk, lookupRw_cons, if_pos hk]
      rcases rw with _ | ov
      · rfl
      · rcases ov with _ | v <;> rfl
    · rw [ih _ k hnd']
      have hsame : mapGet (applyRw r e) k = mapGet r k := by
        rcases e with ⟨k0, rw⟩
        rw [applyRw_get, if_neg hk]
      rw [hsame, lookupRw_cons, if_neg hk]

/-- Claim C3: for a prepared transaction, `commit_inner` returns the journal
and installs the new table root as follows: if the table root is still
pointer-identical to the snapshot root, the working root replaces the table
root wholesale; otherwise every journaled `Write (some v)` is upserted into
and every `Write none` deleted from the current table root, while `Read`
entries change nothing. -/
theorem c3_commit_installs_root (tab : TabState) (txnId : Guid)
    (workingRoot : BinMap) (rootPtrEq : Bool) (wres rres : Except DbErr Unit)
    (rwlog : Journal)
    (hprep : lookupPrep tab.prepare txnId = some rwlog)
    (hnd : (rwlog.map (fun e => e.1)).Nodup) :
    (commit_inner tab txnId workingRoot rootPtrEq wres rres).1 = Except.ok rwlog ∧
    (rootPtrEq = true →
      (commit_inner tab txnId workingRoot rootPtrEq wres rres).2.root = workingRoot) ∧
    (rootPtrEq = false →
      ∀ k, mapGet (commit_inner tab txnId workingRoot rootPtrEq wres rres).2.root k =
        match lookupRw rwlog k with
        | some (RwLog.Write (some v)) => some v
        | some (RwLog.Write none) => none
        | _ => mapGet tab.root k) := by
  refine ⟨?_, ?_, ?_⟩
  · simp [commit_inner, hprep]
  · intro h
    subst h
    simp [commit_inner, hprep]
  · intro h k
    subst h
    simp only [commit_inner, hprep, Bool.false_eq_true, if_false]
    exact foldl_applyRw_get rwlog tab.root k hnd

/-- Witness for C3 at a concrete input: transaction 7's journal `c3rwlog`
(an upsert, a delete and a read) prepared in `c3tab`, committed after the
root moved (`rootPtrEq = false`). -/
theorem c3_witness :
    lookupPrep c3tab.prepare 7 = some c3rwlog ∧
    (c3rwlog.map (fun e => e.1)).Nodup ∧
    ((commit_inner c3tab 7 [(5, 50)] false (Except.ok ()) (Except.ok ())).1 =
        Except.ok c3rwlog ∧
     (false = true →
        (commit_inner c3tab 7 [(5, 50)] false (Except.ok ()) (Except.ok ())).2.root =
          [(5, 50)]) ∧
     (false = false →
        ∀ k, mapGet (commit_inner c3tab 7 [(5, 50)] false
            (Except.ok ()) (Except.ok ())).2.root k =
          match lookupRw c3rwlog k with
          | some (RwLog.Write (some v)) => some v
          | some (RwLog.Write none) => none
          | _ => mapGet c3tab.root k)) :=
  ⟨by decide, by decide,
   c3_commit_installs_root c3tab 7 [(5, 50)] false (Except.ok ()) (Except.ok ())
     c3rwlog (by decide) (by decide)⟩

/-! ### Reference counting (claim C5) -/

theorem lookupTab_erase (ts : List (TabName × TableMetaInfo)) (n g : TabName) :
    lookupTab (removeTab ts n) g = if g = n then none else lookupTab ts g :=
  lookupAssoc_erase ts n g

theorem lookupTab_insert (ts : List (TabName × TableMetaInfo)) (n : TabName)
    (m : TableMetaInfo) (g : TabName) :
    lookupTab (insertTab ts n m) g = if n = g then some m else lookupTab ts g := rfl

/-- Claim C5: reference counting is maintained exactly — committing a fork of
a registered parent increments the parent's `ref_count` by exactly 1 and
rewrites the parent's meta entry in the store; dropping any table with
`ref_count > 0` fails; and a successful drop of a child decrements its
parent's `ref_count` by exactly 1 (and removes the child). -/
theorem c5_refcount_maintained :
    (∀ (st : MetaState) (p c : TabName) (meta idx : Nat) (pm : TableMetaInfo),
      p ≠ c → lookupTab st.allTables p = some pm →
      ∃ st', forkCommitInner st p c meta (Except.ok idx) = Except.ok st' ∧
        lookupTab st'.allTables p = some { pm with ref_count := pm.ref_count + 1 } ∧
        lookupTab st'.metaStore p = some { pm with ref_count := pm.ref_count + 1 }) ∧
    (∀ (st : MetaState) (t : TabName) (m : TableMetaInfo),
      lookupTab st.allTables t = some m → 0 < m.ref_count →
      alterCommitOne st t none = Except.error DbErr.TableInUse) ∧
    (∀ (st : MetaState) (c p : TabName) (cm pm : TableMetaInfo),
      c ≠ p → lookupTab st.allTables c = some cm → cm.ref_count = 0 →
      cm.parent = some p → lookupTab st.allTables p = some pm → 0 < pm.ref_count →
      ∃ st', alterCommitOne st c none = Except.ok st' ∧
        lookupTab st'.allTables c = none ∧
        lookupTab st'.allTables p = some { pm with ref_count := pm.ref_count - 1 } ∧
        ({ pm with ref_count := pm.ref_count - 1 } : TableMetaInfo).ref_count + 1 =
          pm.ref_count) := by
  refine ⟨?_, ?_, ?_⟩
  · intro st p c meta idx pm hpc hlook
    have hcp' : ¬ (c = p) := Ne.symm hpc
    have h1 : lookupTab (insertTab st.allTables c
        { TableMetaInfo.new meta with parent := some p, parent_log_id := some idx }) p =
        some pm := by
      rw [lookupTab_insert, if_neg hcp', hlook]
    simp only [forkCommitInner, h1]
    refine ⟨_, rfl, ?_, ?_⟩
    · rw [lookupTab_insert, if_pos rfl]
    · rw [lookupTab_insert, if_neg hcp', lookupTab_insert, if_pos rfl]
  · intro st t m hlook hrc
    simp only [alterCommitOne, Option.isSome_none, Bool.and_false, Bool.false_eq_true,
      if_false, hlook]
    rw [if_pos hrc]
  · intro st c p cm pm hcp hlc hrc0 hparent hlp hposp
    have hrc' : ¬ 0 < cm.ref_count := by rw [hrc0]; exact Nat.lt_irrefl 0
    have hpc' : ¬ (p = c) := Ne.symm hcp
    have h1 : lookupTab (removeTab st.allTables c) p = some pm := by
      rw [lookupTab_erase, if_neg hpc', hlp]
    simp only [alterCommitOne, Option.isSome_none, Bool.and_false, Bool.false_eq_true,
      if_false, hlc, hrc', hparent, h1]
    refine ⟨_, rfl, ?_, ?_, ?_⟩
    · rw [lookupTab_insert, if_neg hpc', lookupTab_erase, if_pos rfl]
    · rw [lookupTab_insert, if_pos rfl]
    · omega

/-- Witness for C5 at concrete inputs: a fork of table 1 into table 2 at
split index 3, a refused drop of table 1 while its count is positive, and a
successful drop of child 2 decrementing table 1's count back. -/
theorem c5_witness :
    ((1 : TabName) ≠ 2 ∧ lookupTab c5st0.allTables 1 = some c5pm0 ∧
     ∃ st', forkCommitInner c5st0 1 2 9 (Except.ok 3) = Except.ok st' ∧
       lookupTab st'.allTables 1 = some { c5pm0 with ref_count := c5pm0.ref_count + 1 } ∧
       lookupTab st'.metaStore 1 = some { c5pm0 with ref_count := c5pm0.ref_count + 1 }) ∧
    (lookupTab c5st1.allTables 1 = some c5pm1 ∧ 0 < c5pm1.ref_count ∧
     alterCommitOne c5st1 1 none = Except.error DbErr.TableInUse) ∧
    ((2 : TabName) ≠ 1 ∧ lookupTab c5st2.allTables 2 = some c5cm ∧ c5cm.ref_count = 0 ∧
     c5cm.parent = some 1 ∧ lookupTab c5st2.allTables 1 = some c5pm1 ∧
     0 < c5pm1.ref_count ∧
     ∃ st', alterCommitOne c5st2 2 none = Except.ok st' ∧
       lookupTab st'.allTables 2 = none ∧
       lookupTab st'.allTables 1 = some { c5pm1 with ref_count := c5pm1.ref_count - 1 } ∧
       ({ c5pm1 with ref_count := c5pm1.ref_count - 1 } : TableMetaInfo).ref_count + 1 =
         c5pm1.ref_count) :=
  ⟨⟨by decide, by decide,
    c5_refcount_maintained.1 c5st0 1 2 9 3 c5pm0 (by decide) (by decide)⟩,
   ⟨by decide, by decide,
    c5_refcount_maintained.2.1 c5st1 1 c5pm1 (by decide) (by decide)⟩,
   ⟨by decide, by decide, by decide, by decide, by decide, by decide,
    c5_refcount_maintained.2.2 c5st2 2 1 c5cm c5pm1 (by decide) (by decide) (by decide)
      (by decide) (by decide) (by decide)⟩⟩

/-! ### Replay (claim C4) -/

theorem memKey_cons (k x : Key) (l : List Key) :
    memKey k (x :: l) = if k = x then true else memKey k l := rfl

theorem mapGet_upsert (m : BinMap) (k0 : Key) (v : Value) (k : Key) :
    mapGet (mapUpsert m k0 v) k = if k0 = k then some v else mapGet m k := rfl

theorem isRequire_fst (s : LoaderState) (seg : PathT) (k : Key) :
    (isRequire s seg k).1 = (!(memKey k s.removed) && !(memKey k s.tmpMap)) := rfl

theorem isRequire_removed (s : LoaderState) (seg : PathT) (k : Key) :
    ((isRequire s seg k).2).removed = s.removed := rfl

theorem isRequire_map (s : LoaderState) (seg : PathT) (k : Key) :
    ((isRequire s seg k).2).map = s.map := rfl

theorem isRequire_tmpMap (s : LoaderState) (seg : PathT) (k : Key) :
    ((isRequire s seg k).2).tmpMap = s.tmpMap := rfl

theorem isRequire_isInit (s : LoaderState) (seg : PathT) (k : Key) :
    ((isRequire s seg k).2).isInit = s.isInit := rfl

theorem loadRec_some_removed (s : LoaderState) (seg : PathT) (k : Key) (v : Value) :
    (loadRec s seg k (some v)).removed = s.removed := rfl

theorem loadRec_some_tmp (s : LoaderState) (seg : PathT) (k : Key) (v : Value) :
    (loadRec s seg k (some v)).tmpMap = k :: s.tmpMap := rfl

theorem loadRec_some_map (s : LoaderState) (seg : PathT) (k : Key) (v : Value) :
    (loadRec s seg k (some v)).map =
      if s.isInit then mapUpsert s.map k v else s.map := rfl

theorem loadRec_none_removed (s : LoaderState) (seg : PathT) (k : Key) :
    (loadRec s seg k none).removed = k :: s.removed := rfl

theorem loadRec_none_tmp (s : LoaderState) (seg : PathT) (k : Key) :
    (loadRec s seg k none).tmpMap = s.tmpMap := rfl

theorem loadRec_none_map (s : LoaderState) (seg : PathT) (k : Key) :
    (loadRec s seg k none).map = s.map := rfl

theorem loadRec_isInit (s : LoaderState) (seg : PathT) (k : Key) (v : Option Value) :
    (loadRec s seg k v).isInit = s.isInit := by
  cases v <;> rfl

theorem replay_cons (r : Rec) (rest : List Rec) (s : LoaderState) :
    replay (r :: rest) s = replay rest (replayStep s r) := rfl

theorem replayStep_true (s : LoaderState) (r : Rec)
    (hb : (isRequire s r.seg r.key).1 = true) :
    replayStep s r = loadRec (isRequire s r.seg r.key).2 r.seg r.key r.value := by
  simp [replayStep, hb]

theorem replayStep_false (s : LoaderState) (r : Rec)
    (hb : (isRequire s r.seg r.key).1 = false) :
    replayStep s r = (isRequire s r.seg r.key).2 := by
  simp [replayStep, hb]

theorem replayStep_other (s : LoaderState) (r : Rec) (k : Key)
    (hk : ¬ (r.key = k)) :
    mapGet (replayStep s r).map k = mapGet s.map k ∧
    memKey k (replayStep s r).tmpMap = memKey k s.tmpMap ∧
    memKey k (replayStep s r).removed = memKey k s.removed := by
  cases hb : (isRequire s r.seg r.key).1
  · rw [replayStep_false s r hb, isRequire_map, isRequire_tmpMap, isRequire_removed]
    exact ⟨rfl, rfl, rfl⟩
  · rw [replayStep_true s r hb]
    rcases hv : r.value with _ | v
    · refine ⟨?_, ?_, ?_⟩
      · rw [loadRec_none_map, isRequire_map]
      · rw [loadRec_none_tmp, isRequire_tmpMap]
      · rw [loadRec_none_removed, isRequire_removed, memKey_cons,
          if_neg (fun hh => hk hh.symm)]
    · refine ⟨?_, ?_, ?_⟩
      · rw [loadRec_some_map, isRequire_isInit, isRequire_map]
        cases hi : s.isInit
        · simp
        · simp [mapGet_upsert, hk]
      · rw [loadRec_some_tmp, isRequire_tmpMap, memKey_cons,
          if_neg (fun hh => hk hh.symm)]
      · rw [loadRec_some_removed, isRequire_removed]

theorem replayStep_isInit (s : LoaderState) (r : Rec) :
    (replayStep s r).isInit = s.isInit := by
  cases hb : (isRequire s r.seg r.key).1
  · rw [replayStep_false s r hb, isRequire_isInit]
  · rw [replayStep_true s r hb, loadRec_isInit, isRequire_isInit]

theorem replayStep_keeps (s : LoaderState) (r : Rec) (k : Key)
    (hd : memKey k s.tmpMap = true ∨ memKey k s.removed = true) :
    mapGet (replayStep s r).map k = mapGet s.map k ∧
    (memKey k (replayStep s r).tmpMap = true ∨
     memKey k (replayStep s r).removed = true) := by
  cases hb : (isRequire s r.seg r.key).1
  · rw [replayStep_false s r hb, isRequire_map, isRequire_tmpMap, isRequire_removed]
    exact ⟨rfl, hd⟩
  · have hexpr : (!(memKey r.key s.removed) && !(memKey r.key s.tmpMap)) = true := by
      rw [← isRequire_fst s r.seg r.key, hb]
    rw [Bool.and_eq_true, Bool.not_eq_true', Bool.not_eq_true'] at hexpr
    obtain ⟨hrm, htm⟩ := hexpr
    have hk : ¬ (r.key = k) := by
      intro hh
      subst hh
      rcases hd with hd | hd
      · rw [htm] at hd; simp at hd
      · rw [hrm] at hd; simp at hd
    obtain ⟨h1, h2, h3⟩ := replayStep_other s r k hk
    rw [h1, h2, h3]
    exact ⟨rfl, hd⟩

theorem replay_keeps :
    ∀ (recs : List Rec) (s : LoaderState) (k : Key),
    memKey k s.tmpMap = true ∨ memKey k s.removed = true →
    mapGet (replay recs s).map k = mapGet s.map k := by
  intro recs
  induction recs with
  | nil => intro s k _; rfl
  | cons r rest ih =>
    intro s k hd
    rw [replay_cons]
    obtain ⟨h1, h2⟩ := replayStep_keeps s r k hd
    rw [ih _ k h2, h1]

theorem replay_undecided :
    ∀ (recs : List Rec) (s : LoaderState) (k : Key),
    memKey k s.tmpMap = false → memKey k s.removed = false → s.isInit = true →
    mapGet (replay recs s).map k =
      (match newestFor k recs with
       | some (some v) => some v
       | _ => mapGet s.map k) := by
  intro recs
  induction recs with
  | nil => intro s k _ _ _; rfl
  | cons r rest ih =>
    intro s k htm hrm hinit
    rw [replay_cons]
    by_cases hk : r.key = k
    · have hb : (isRequire s r.seg r.key).1 = true := by
        rw [isRequire_fst, hk, hrm, htm]
        rfl
      rw [replayStep_true s r hb]
      rcases hv : r.value with _ | v
      · have hd : memKey k (loadRec (isRequire s r.seg r.key).2 r.seg r.key none).tmpMap
              = true ∨
            memKey k (loadRec (isRequire s r.seg r.key).2 r.seg r.key none).removed
              = true := by
          right
          rw [loadRec_none_removed, isRequire_removed, memKey_cons, if_pos hk.symm]
        rw [replay_keeps rest _ k hd, loadRec_none_map, isRequire_map]
        simp only [newestFor, if_pos hk, hv]
      · have hd : memKey k (loadRec (isRequire s r.seg r.key).2 r.seg r.key (some v)).tmpMap
              = true ∨
            memKey k (loadRec (isRequire s r.seg r.key).2 r.seg r.key (some v)).removed
              = true := by
          left
          rw [loadRec_some_tmp, isRequire_tmpMap, memKey_cons, if_pos hk.symm]
        rw [replay_keeps rest _ k hd, loadRec_some_map, isRequire_isInit, isRequire_map,
          hinit, if_pos rfl, mapGet_upsert, if_pos hk]
        simp only [newestFor, if_pos hk, hv]
    · obtain ⟨h1, h2, h3⟩ := replayStep_other s r k hk
      rw [ih _ k (by rw [h2]; exact htm) (by rw [h3]; exact hrm)
        (by rw [replayStep_isInit]; exact hinit), h1]
      simp only [newestFor, if_neg hk]

/-- Claim C4: during replay (records visited newest first) the first
observation of a key wins — `is_require(segment, key)` returns true exactly
when the key is in neither the tombstone set (`removed`) nor the seen set
(`tmp_map`), and a full replay from the fresh loader materializes exactly the
keys whose newest record is an append, each mapped to that newest append's
value. -/
theorem c4_replay_first_observation_wins :
    (∀ (s : LoaderState) (seg : PathT) (k : Key),
      (isRequire s seg k).1 = (!(memKey k s.removed) && !(memKey k s.tmpMap))) ∧
    (∀ (recs : List Rec) (k : Key),
      mapGet (replay recs initLoader).map k =
        match newestFor k recs with
        | some (some v) => some v
        | _ => none) := by
  refine ⟨fun s seg k => rfl, fun recs k => ?_⟩
  rw [replay_undecided recs initLoader k rfl rfl rfl]
  rcases hn : newestFor k recs with _ | ov
  · rfl
  · rcases ov with _ | v <;> rfl

/-! ### Compaction selection order (claim C6) -/

/-- Claim C6 is false on the code's scan order: after replaying `c6recs`
(newest first: head segment 2, then segment 1, then segment 0) the statistics
deque holds the OLDEST read-only segment at the front, and `collect` iterating
it selects segment 0 for rewrite, while the claim's newest-to-oldest scan
(`collectSelectNewestFirst`) stops immediately at segment 1 and selects
nothing. -/
theorem c6_counterexample_scan_order :
    (replay c6recs initLoader).statistics = [(0, 2, 1), (1, 1, 1)] ∧
    (collectSelect (replay c6recs initLoader).statistics).collectLogs = [0] ∧
    (collectSelectNewestFirst (replay c6recs initLoader).statistics).collectLogs = [] := by
  decide

/-- Claim C6 (amended): the compaction planner scans the per-segment
statistics in deque order — OLDEST read-only segment to newest, the writable
head never appearing — and on the scanned prefix: a segment with no live keys
is marked for removal and scanning continues; otherwise if
`entries / unique_live_keys < 1.5` scanning stops immediately; otherwise the
segment is marked for rewrite and scanning continues.  Equivalently, the scan
covers exactly the maximal prefix of continuing segments, removals being those
with no live keys and rewrites the rest. -/
theorem c6_collect_scan_oldest_to_newest (stats : List (PathT × Nat × Nat)) :
    (collectSelect stats).removeLogs =
      ((stats.takeWhile segContinue).filter (fun t => decide (t.2.2 = 0))).map
        (fun t => t.1) ∧
    (collectSelect stats).collectLogs =
      ((stats.takeWhile segContinue).filter (fun t => !(decide (t.2.2 = 0)))).map
        (fun t => t.1) := by
  induction stats with
  | nil => exact ⟨rfl, rfl⟩
  | cons t rest ih =>
    rcases t with ⟨path, logLen, keyLen⟩
    by_cases h0 : keyLen = 0
    · subst h0
      have hc : segContinue (path, logLen, 0) = true := by
        simp [segContinue]
      simp [collectSelect, hc, List.takeWhile_cons, List.filter_cons, ih.1, ih.2]
    · by_cases hlt : 2 * logLen < 3 * keyLen
      · have hc : segContinue (path, logLen, keyLen) = false := by
          simp only [segContinue, decide_eq_false_iff_not]
          omega
        simp [collectSelect, h0, hlt, hc, List.takeWhile_cons]
      · have hc : segContinue (path, logLen, keyLen) = true := by
          simp only [segContinue, decide_eq_true_eq]
          omega
        simp [collectSelect, h0, hlt, hc, List.takeWhile_cons, List.filter_cons,
          ih.1, ih.2]

end PiDb
